import Mathlib

/-!
Shallow embedding of `src/ledger/transaction.ts` (xverse-core ledger module):
the fee-aware UTXO selection orchestrator (`getTransactionData`), the three
unsigned-PSBT assembly variants (`createNativeSegwitPsbt`, `createTaprootPsbt`,
`createMixedPsbt`) and the Stacks signature patcher
(`addSignatureToStxTransaction`).

External collaborators that live outside the embedded file
(`selectUnspentOutputs`, `sumUnspentOutputs`, `filterUtxos`, `getFee`,
`fetchBtcFeeRate`, the Esplora provider, and the Stacks deserialization and
signature-encoding primitives) are either modelled from the spec (when the
spec pins their behaviour down) or taken as explicit parameters of the
embedding (when the spec gives only their interface).  Network effects are
made explicit: the orchestrator returns, next to its result, a trace counting
fee-rate-tier fetches and reconciliation calls, and the assemblers return the
list of raw-transaction fetches they perform, in order.

Arbitrary-precision `BigNumber` integer arithmetic is embedded as `Int`
(exact); the lossy `BigNumber.toNumber()` conversion to an IEEE-754 double is
embedded exactly on integers as round-to-nearest-even (`roundToDouble`).
-/

/-- An unspent transaction output as used by the ledger module: outpoint
`(txid, vout)`, value in satoshis, and owning address. -/
structure UTXO where
  txid : String
  vout : Nat
  value : Nat
  address : String
deriving DecidableEq

/-- A payment recipient: address plus amount in satoshis (integer, held as a
`BigNumber` in the source; embedded exactly as `Int`). -/
structure Recipient where
  address : String
  amountSats : Int
deriving DecidableEq

/-- The network selector of the source (Mainnet or Testnet). -/
inductive NetworkType
  | Mainnet
  | Testnet
deriving DecidableEq

/-- The fee-rate tier response (`BtcFeeResponse`): slow / regular / fast. -/
structure BtcFeeResponse where
  slow : Int
  regular : Int
  fast : Int
deriving DecidableEq

/-- Modelled from the spec: `sumValues([SpendableOutput]) -> amount`, the
external `sumUnspentOutputs` collaborator — sum of the values of a list of
outputs, with unbounded-precision accumulation. -/
def sumUnspentOutputs (utxos : List UTXO) : Int :=
  (utxos.map fun u => (u.value : Int)).sum

/-- Modelled from the spec: the external `filterUtxos` collaborator —
`fundable = unspent \ payload-marked`, preserving relative order; membership
in the removal set is by outpoint `(txid, vout)`. -/
def filterUtxos (unspent toRemove : List UTXO) : List UTXO :=
  unspent.filter fun u => !(toRemove.any fun o => o.txid == u.txid && o.vout == u.vout)

/-- Greedy in-order accumulation of candidates until the running total covers
the target (helper for the modelled selection heuristic). -/
def coverGreedy (target : Int) : List UTXO → Int → List UTXO
  | [], _ => []
  | u :: rest, acc =>
      if target ≤ acc then [] else u :: coverGreedy target rest (acc + (u.value : Int))

/-- Modelled from the spec: the external coin-selection heuristic
`selectInputs(target, feeRatePerVByte, candidates, pinned?)` — deterministic,
returns a target-covering subset of the candidates taken in order, with the
caller-designated pinned output always force-included (first) when present
and removed from the fungible candidates so it is not double-counted.  The
spec leaves the use of the fee rate to the heuristic; this model accepts it
and does not need it. -/
def selectUnspentOutputs (amount : Int) (feeRatePerVByte : Int) (candidates : List UTXO)
    (pinned : Option UTXO) : List UTXO :=
  match pinned with
  | some p =>
      p :: coverGreedy amount
        (candidates.filter fun u => !(u.txid == p.txid && u.vout == p.vout)) (p.value : Int)
  | none => coverGreedy amount candidates 0

/-- Modelled from the spec: the fixed placeholder default fee rate used only
in the provisional phase (tier values are placeholders). -/
def defaultFeeRate : BtcFeeResponse :=
  { slow := 10, regular := 30, fast := 50 }

/-- JS truthiness of the optional fee-rate string parameter: `undefined` and
the empty string are falsy. -/
def strTruthy : Option String → Bool
  | none => false
  | some s => !(s == "")

/-- Modelled from the spec: `Number(feeRateInput)` on a numeric satoshis/vByte
string (stand-in parse; the orchestrator only forwards the value to the
selection heuristic). -/
def jsNumber (s : String) : Int :=
  ((s.toNat?).getD 0 : Nat)

/-- The fee-rate argument handed to the reconciliation collaborator:
`feeRateInput || feeRate` — the numeric string of the caller when truthy, the
fetched tier response otherwise. -/
inductive FeeRateArg
  | custom (feeRate : String)
  | tiers (feeRate : BtcFeeResponse)
deriving DecidableEq

/-- Modelled from the spec: the stable machine-readable code for the
insufficient-funds failure (`ErrorCodes.InSufficientBalanceWithTxFee`; the
spec fixes its existence and stability, not its numeric value — 601 is a
stand-in). -/
def ErrorCodes.InSufficientBalanceWithTxFee : Nat := 601

/-- Modelled from the spec: the `ResponseError` class — a typed error object
carrying a stable machine-readable `statusCode`. -/
structure ResponseError where
  statusCode : Nat
deriving DecidableEq

/-- The JavaScript value thrown by the orchestrator.  The source throws
`new ResponseError(code).statusCode` — the bare number — not the
`ResponseError` object itself (hence the `eslint no-throw-literal`
suppression in the source). -/
inductive Thrown
  | statusCode (code : Nat)
  | errorObject (err : ResponseError)
deriving DecidableEq

/-- Whether the thrown value is a typed error object (as opposed to a bare
numeric literal). -/
def Thrown.isTypedError : Thrown → Bool
  | .statusCode _ => false
  | .errorObject _ => true

/-- The collaborator environment of `getTransactionData`: results of the two
candidate-gathering fetches, the fetched fee-rate tiers, and the external
reconciliation function `getFee(candidates, selected, sumOfSelected, amount,
recipients, feeRateArg, senderAddress, network, pinned?) ->
{newSelectedUnspentOutputs, fee}` (spec §6 gives only this interface). -/
structure GtdEnv where
  unspentOutputs : List UTXO
  addressOrdinalsUtxos : List UTXO
  fetchedFeeRate : BtcFeeResponse
  getFee : List UTXO → List UTXO → Int → Int → List Recipient → FeeRateArg → String →
    NetworkType → Option UTXO → List UTXO × Int

/-- Trace of network collaborator invocations made by one
`getTransactionData` call: fee-rate-tier fetches and reconciliation calls. -/
structure GtdTrace where
  feeRateFetches : Nat
  getFeeCalls : Nat
deriving DecidableEq

/-- The successful result of `getTransactionData`. -/
structure TransactionData where
  selectedUTXOs : List UTXO
  changeValue : Int
  fee : Int
  ordinalUtxoInPaymentAddress : Bool
deriving DecidableEq

/-- The `ordinalUtxoInPaymentAddress` computation: whether the supplied
pinned output shares an outpoint with some member of the fetched unspent
set; `false` when no pinned output is supplied. -/
def ordinalFlag (unspentOutputs : List UTXO) : Option UTXO → Bool
  | some o => unspentOutputs.any fun u => u.txid == o.txid && u.vout == o.vout
  | none => false

/-- The `amountSats` target: total satoshis to send, accumulated over the recipients
with unbounded precision. -/
def amountSatsOf (recipients : List Recipient) : Int :=
  recipients.foldl (fun acc v => acc + v.amountSats) 0

/-- The provisional selection of `getTransactionData`: the heuristic run on
the filtered candidates under the fee rate of the caller if truthy, else the
placeholder default rate, with the pinned output passed through. -/
def provisionalSelection (env : GtdEnv) (recipients : List Recipient)
    (feeRateInput : Option String) (ordinalUtxo : Option UTXO) : List UTXO :=
  selectUnspentOutputs (amountSatsOf recipients)
    (if strTruthy feeRateInput then jsNumber (feeRateInput.getD "") else defaultFeeRate.regular)
    (filterUtxos env.unspentOutputs env.addressOrdinalsUtxos) ordinalUtxo

/-- The reconciliation call of `getTransactionData`: `getFee` applied to the
filtered candidates, the provisional selection and its total, the target,
the recipients, `feeRateInput || fetchedFeeRate`, sender address, network
and pinned output.  Returns the (possibly different) selection and fee. -/
def reconciledResult (env : GtdEnv) (network : NetworkType) (senderAddress : String)
    (recipients : List Recipient) (feeRateInput : Option String) (ordinalUtxo : Option UTXO) :
    List UTXO × Int :=
  env.getFee (filterUtxos env.unspentOutputs env.addressOrdinalsUtxos)
    (provisionalSelection env recipients feeRateInput ordinalUtxo)
    (sumUnspentOutputs (provisionalSelection env recipients feeRateInput ordinalUtxo))
    (amountSatsOf recipients) recipients
    (if strTruthy feeRateInput then .custom (feeRateInput.getD "")
     else .tiers env.fetchedFeeRate)
    senderAddress network ordinalUtxo

/-- Embedding of `getTransactionData`: gather candidates, compute the pinned
membership flag, run the provisional selection, fast-reject with the
insufficiency status code when the provisional total is below the target,
otherwise fetch the fee tiers, reconcile via `getFee`, re-validate only when
the reconciled selection length differs, and return the selection, change,
fee and flag together with the invocation trace. -/
def getTransactionData (env : GtdEnv) (network : NetworkType) (senderAddress : String)
    (recipients : List Recipient) (feeRateInput : Option String) (ordinalUtxo : Option UTXO) :
    Except Thrown TransactionData × GtdTrace :=
  let selectedUTXOs := provisionalSelection env recipients feeRateInput ordinalUtxo
  let sumOfSelectedUTXOs := sumUnspentOutputs selectedUTXOs
  if sumOfSelectedUTXOs < amountSatsOf recipients then
    (.error (.statusCode (ResponseError.mk ErrorCodes.InSufficientBalanceWithTxFee).statusCode),
     ⟨0, 0⟩)
  else
    let nf := reconciledResult env network senderAddress recipients feeRateInput ordinalUtxo
    let fee := nf.2
    if nf.1.length ≠ selectedUTXOs.length then
      let sum2 := sumUnspentOutputs nf.1
      if sum2 < amountSatsOf recipients + fee then
        (.error
          (.statusCode (ResponseError.mk ErrorCodes.InSufficientBalanceWithTxFee).statusCode),
         ⟨1, 1⟩)
      else
        (.ok ⟨nf.1, sum2 - amountSatsOf recipients - fee, fee,
              ordinalFlag env.unspentOutputs ordinalUtxo⟩, ⟨1, 1⟩)
    else
      (.ok ⟨selectedUTXOs, sumOfSelectedUTXOs - amountSatsOf recipients - fee, fee,
            ordinalFlag env.unspentOutputs ordinalUtxo⟩, ⟨1, 1⟩)

/-- A byte buffer; the core never inspects the bytes, so the buffer is kept
up to representation as the hex text it was decoded from. -/
structure Buffer where
  data : String
deriving DecidableEq

/-- Embedding of `Buffer.from` on a hex string, up to representation. -/
def Buffer.fromHex (s : String) : Buffer := ⟨s⟩

/-- Per-input BIP32 derivation record (opaque to this core: attached
verbatim). -/
structure Bip32Derivation where
  masterFingerprint : String
  path : String
  pubkey : String
deriving DecidableEq

/-- Per-input taproot-flavoured BIP32 derivation record (opaque to this
core: attached verbatim). -/
structure TapBip32Derivation where
  masterFingerprint : String
  path : String
  pubkey : String
  leafHashes : List String
deriving DecidableEq

/-- The bitcoinjs network object chosen from the `NetworkType`. -/
inductive BtcNetwork
  | bitcoin
  | testnet
deriving DecidableEq

/-- One PSBT input as the three assembly variants construct it.  Fields the
source may leave `undefined` are `Option`s. -/
structure PsbtInput where
  hash : String
  index : Nat
  witnessUtxoScript : Buffer
  witnessUtxoValue : Nat
  nonWitnessUtxo : Option Buffer
  bip32Derivation : Option (List Bip32Derivation)
  tapBip32Derivation : Option (List TapBip32Derivation)
  tapInternalKey : Option Buffer
  sequence : Nat
deriving DecidableEq

/-- One PSBT output: address plus value (a JS number — the result of
`BigNumber.toNumber()`, embedded by `toNumber` below). -/
structure PsbtOutput where
  address : String
  value : Int
deriving DecidableEq

/-- The PSBT container: network, ordered inputs, ordered outputs. -/
structure Psbt where
  network : BtcNetwork
  inputs : List PsbtInput
  outputs : List PsbtOutput
deriving DecidableEq

/-- The collaborator environment of the assemblers: the Esplora raw
transaction hex fetch, keyed by txid (deterministic for a given txid). -/
structure AssemblyEnv where
  getTransactionHex : String → String

/-- Round a nonnegative integer to the nearest IEEE-754 double
(round-to-nearest, ties-to-even), computed exactly over `Nat`: integers up
to `2 ^ 53` are exact; above, the value is rounded to the nearest multiple
of the spacing of the binade `2 ^ (log2 n - 52)`.  Models `BigNumber.toNumber()`
on integer satoshi amounts (finite range; double overflow near `2 ^ 1024`
is far beyond the range of the claims and not modelled). -/
def roundToDouble (n : Nat) : Nat :=
  if n ≤ 2 ^ 53 then n
  else
    let e := n.log2 - 52
    let lo := n / 2 ^ e * 2 ^ e
    let r := n % 2 ^ e
    if 2 * r < 2 ^ e then lo
    else if 2 ^ e < 2 * r then lo + 2 ^ e
    else if n / 2 ^ e % 2 = 0 then lo else lo + 2 ^ e

/-- Embedding of `BigNumber.toNumber` on an exact integer: sign-symmetric
round-to-nearest-double. -/
def toNumber (i : Int) : Int :=
  if i < 0 then -(roundToDouble i.natAbs : Int) else (roundToDouble i.natAbs : Int)

/-- The output list shared by all three assembly variants: one output per
recipient in recipient order (value converted by `toNumber`), then one
change output exactly when the converted change is positive. -/
def psbtOutputsOf (recipients : List Recipient) (changeAddress : String) (changeValue : Int) :
    List PsbtOutput :=
  (recipients.map fun value => { address := value.address, value := toNumber value.amountSats }) ++
    (if toNumber changeValue > 0 then
      [{ address := changeAddress, value := toNumber changeValue }]
     else [])

/-- The txid-keyed `transactionMap` after the joined fetch fan-out: one
entry per distinct txid referenced by the selection, holding the
fetched bytes of that txid (every concurrent writer for a key writes identical content,
so last-write-wins equals this function). -/
def transactionMapOf (env : AssemblyEnv) (inputUTXOs : List UTXO) : String → Option Buffer :=
  fun txid =>
    if inputUTXOs.any fun u => u.txid == txid then
      some (Buffer.fromHex (env.getTransactionHex txid))
    else none

/-- Embedding of `createNativeSegwitPsbt` (variant A): fetch the raw parent
transaction hex once per input (the `map` over `inputUTXOs` issues one
fetch per element), store the bytes in the txid-keyed map, then add one
input per selected UTXO carrying witness script and value, the parent bytes
as `nonWitnessUtxo`, the shared derivation, and `sequence = 0xfffffffd`;
finally the recipient outputs and the conditional change output.  Returns
the PSBT together with the ordered list of txids fetched. -/
def createNativeSegwitPsbt (env : AssemblyEnv) (network : NetworkType)
    (recipients : List Recipient) (changeAddress : String) (changeValue : Int)
    (inputUTXOs : List UTXO) (inputDerivation : Option (List Bip32Derivation))
    (witnessScript : Buffer) : Psbt × List String :=
  let btcNetwork := if network = NetworkType.Mainnet then BtcNetwork.bitcoin
                    else BtcNetwork.testnet
  let fetchedTxids := inputUTXOs.map fun u => u.txid
  let transactionMap := transactionMapOf env inputUTXOs
  let inputs := inputUTXOs.map fun utxo =>
    { hash := utxo.txid
      index := utxo.vout
      witnessUtxoScript := witnessScript
      witnessUtxoValue := utxo.value
      nonWitnessUtxo := transactionMap utxo.txid
      bip32Derivation := inputDerivation
      tapBip32Derivation := none
      tapInternalKey := none
      sequence := 0xfffffffd : PsbtInput }
  (⟨btcNetwork, inputs, psbtOutputsOf recipients changeAddress changeValue⟩, fetchedTxids)

/-- Embedding of `createTaprootPsbt` (variant B): one input per selected
UTXO carrying the taproot script and value, the taproot derivation, the
internal key, and `sequence = 0xfffffffd`; no parent-transaction bytes;
then the shared output rule. -/
def createTaprootPsbt (network : NetworkType) (recipients : List Recipient)
    (changeAddress : String) (changeValue : Int) (inputUTXOs : List UTXO)
    (inputDerivation : Option (List TapBip32Derivation)) (taprootScript : Buffer)
    (tapInternalKey : Buffer) : Psbt :=
  let btcNetwork := if network = NetworkType.Mainnet then BtcNetwork.bitcoin
                    else BtcNetwork.testnet
  let inputs := inputUTXOs.map fun utxo =>
    { hash := utxo.txid
      index := utxo.vout
      witnessUtxoScript := taprootScript
      witnessUtxoValue := utxo.value
      nonWitnessUtxo := none
      bip32Derivation := none
      tapBip32Derivation := inputDerivation
      tapInternalKey := some tapInternalKey
      sequence := 0xfffffffd : PsbtInput }
  ⟨btcNetwork, inputs, psbtOutputsOf recipients changeAddress changeValue⟩

/-- Embedding of `createMixedPsbt` (variant C): fetch the raw parent hex
once per input as in variant A; each selected UTXO whose owning address
equals the change address becomes a segwit-style input (witness context,
parent bytes, shared BIP32 derivation), every other one a taproot-style
input (taproot witness context, taproot derivation, internal key); all
inputs carry `sequence = 0xfffffffd`; then the shared output rule.  Returns
the PSBT together with the ordered list of txids fetched. -/
def createMixedPsbt (env : AssemblyEnv) (network : NetworkType)
    (recipients : List Recipient) (changeAddress : String) (changeValue : Int)
    (inputUTXOs : List UTXO) (inputDerivation : Option (List Bip32Derivation))
    (witnessScript : Buffer) (taprootInputDerivation : Option (List TapBip32Derivation))
    (taprootScript : Buffer) (tapInternalKey : Buffer) : Psbt × List String :=
  let btcNetwork := if network = NetworkType.Mainnet then BtcNetwork.bitcoin
                    else BtcNetwork.testnet
  let fetchedTxids := inputUTXOs.map fun u => u.txid
  let transactionMap := transactionMapOf env inputUTXOs
  let inputs := inputUTXOs.map fun utxo =>
    if utxo.address == changeAddress then
      { hash := utxo.txid
        index := utxo.vout
        witnessUtxoScript := witnessScript
        witnessUtxoValue := utxo.value
        nonWitnessUtxo := transactionMap utxo.txid
        bip32Derivation := inputDerivation
        tapBip32Derivation := none
        tapInternalKey := none
        sequence := 0xfffffffd : PsbtInput }
    else
      { hash := utxo.txid
        index := utxo.vout
        witnessUtxoScript := taprootScript
        witnessUtxoValue := utxo.value
        nonWitnessUtxo := none
        bip32Derivation := none
        tapBip32Derivation := taprootInputDerivation
        tapInternalKey := some tapInternalKey
        sequence := 0xfffffffd : PsbtInput }
  (⟨btcNetwork, inputs, psbtOutputsOf recipients changeAddress changeValue⟩, fetchedTxids)

/-- A message signature as produced by the Stacks `createMessageSignature`
encoding collaborator. -/
structure MessageSignature where
  data : String
deriving DecidableEq

/-- Modelled from the spec: the single-signature spending condition of a
deserialized Stacks transaction — the signature slot plus surrounding
fields this core never touches. -/
structure SingleSigSpendingCondition where
  hashMode : Nat
  signer : String
  nonce : Nat
  fee : Nat
  keyEncoding : Nat
  signature : MessageSignature
deriving DecidableEq

/-- Modelled from the spec: the authorization of a deserialized Stacks
transaction, holding the single-signature spending condition. -/
structure StxAuth where
  authType : Nat
  spendingCondition : SingleSigSpendingCondition
deriving DecidableEq

/-- Modelled from the spec: a deserialized Stacks transaction handle — the
authorization plus fields this core never touches. -/
structure StacksTransaction where
  version : Nat
  chainId : Nat
  auth : StxAuth
  payload : String
deriving DecidableEq

/-- Lower-case hex digit of a value below 16. -/
def hexDigit (n : Nat) : Char :=
  if n < 10 then Char.ofNat (48 + n) else Char.ofNat (87 + n)

/-- Hex text of a byte list as `Buffer.toString` with the hex encoding
produces it: two lower-case hex digits per byte, in order. -/
def bytesToHex (bytes : List Nat) : String :=
  String.join (bytes.map fun b => String.mk [hexDigit (b / 16 % 16), hexDigit (b % 16)])

/-- Embedding of `addSignatureToStxTransaction`: deserialize the supplied
transaction, encode the raw VRS signature bytes as a message signature via
the hex text, assign it into the signature slot of the
single-signature spending condition, and return the transaction.  The external
`deserializeTransaction` and `createMessageSignature` primitives are
explicit parameters (spec §6 gives only their interfaces). -/
def addSignatureToStxTransaction (deserializeTransaction : String → StacksTransaction)
    (createMessageSignature : String → MessageSignature)
    (transaction : String) (signatureVRS : List Nat) : StacksTransaction :=
  let deserializedTx := deserializeTransaction transaction
  let spendingCondition := createMessageSignature (bytesToHex signatureVRS)
  { deserializedTx with
    auth := { deserializedTx.auth with
      spendingCondition := { deserializedTx.auth.spendingCondition with
        signature := spendingCondition } } }

/-! ### Helper lemmas -/

theorem sumUnspentOutputs_nil : sumUnspentOutputs [] = 0 := rfl

theorem sumUnspentOutputs_cons (u : UTXO) (l : List UTXO) :
    sumUnspentOutputs (u :: l) = (u.value : Int) + sumUnspentOutputs l := by
  simp [sumUnspentOutputs]

theorem sumUnspentOutputs_nonneg (l : List UTXO) : 0 ≤ sumUnspentOutputs l := by
  induction l with
  | nil => simp [sumUnspentOutputs_nil]
  | cons u rest ih =>
      rw [sumUnspentOutputs_cons]
      have : (0 : Int) ≤ (u.value : Int) := Int.natCast_nonneg _
      linarith

theorem coverGreedy_sum_le (target : Int) (l : List UTXO) (acc : Int) :
    sumUnspentOutputs (coverGreedy target l acc) ≤ sumUnspentOutputs l := by
  induction l generalizing acc with
  | nil => simp [coverGreedy]
  | cons u rest ih =>
      simp only [coverGreedy]
      split
      · rw [sumUnspentOutputs_nil, sumUnspentOutputs_cons]
        have := sumUnspentOutputs_nonneg rest
        have : (0 : Int) ≤ (u.value : Int) := Int.natCast_nonneg _
        linarith [sumUnspentOutputs_nonneg rest]
      · rw [sumUnspentOutputs_cons, sumUnspentOutputs_cons]
        have := ih (acc + (u.value : Int))
        linarith

theorem roundToDouble_of_le (n : Nat) (h : n ≤ 2 ^ 53) : roundToDouble n = n := by
  unfold roundToDouble
  rw [if_pos h]

theorem roundToDouble_pos (n : Nat) (h : 1 ≤ n) : 1 ≤ roundToDouble n := by
  unfold roundToDouble
  split
  · exact h
  next h2 =>
    have hn0 : n ≠ 0 := by omega
    have hpow : 0 < 2 ^ (n.log2 - 52) := Nat.pos_pow_of_pos _ (by norm_num)
    have hle : 2 ^ (n.log2 - 52) ≤ n :=
      le_trans (Nat.pow_le_pow_right (by norm_num) (Nat.sub_le _ _)) (Nat.log2_self_le hn0)
    have hdiv : 1 ≤ n / 2 ^ (n.log2 - 52) := (Nat.one_le_div_iff hpow).mpr hle
    have hlo : 1 ≤ n / 2 ^ (n.log2 - 52) * 2 ^ (n.log2 - 52) := Nat.mul_pos hdiv hpow
    dsimp only
    split
    · exact hlo
    · split
      · exact le_trans hlo (Nat.le_add_right _ _)
      · split
        · exact hlo
        · exact le_trans hlo (Nat.le_add_right _ _)

theorem toNumber_of_nonneg_le (n : Int) (h0 : 0 ≤ n) (h : n ≤ 2 ^ 53) : toNumber n = n := by
  have hons : (n.natAbs : Int) = n := Int.natAbs_of_nonneg h0
  have habs : n.natAbs ≤ 2 ^ 53 := by
    have h53 : (2 : Int) ^ 53 = ((2 ^ 53 : Nat) : Int) := by norm_num
    omega
  unfold toNumber
  rw [if_neg (by omega), roundToDouble_of_le _ habs, hons]

theorem toNumber_pos_iff (n : Int) : 0 < toNumber n ↔ 0 < n := by
  unfold toNumber
  split
  next hneg =>
    have : (0 : Int) ≤ (roundToDouble n.natAbs : Int) := Int.natCast_nonneg _
    constructor
    · intro hpos; omega
    · intro hpos; omega
  next hpos =>
    constructor
    · intro hp
      by_contra h0
      have hn : n = 0 := by omega
      subst hn
      simp only [Int.natAbs_zero] at hp
      rw [roundToDouble_of_le 0 (by norm_num)] at hp
      omega
    · intro hp
      have h1 : 1 ≤ n.natAbs := by omega
      have := roundToDouble_pos _ h1
      omega

theorem psbtOutputsOf_eq (recipients : List Recipient) (changeAddress : String)
    (changeValue : Int) :
    psbtOutputsOf recipients changeAddress changeValue
      = (recipients.map fun r => { address := r.address, value := toNumber r.amountSats }) ++
        (if 0 < changeValue then
          [{ address := changeAddress, value := toNumber changeValue }]
         else ([] : List PsbtOutput)) := by
  unfold psbtOutputsOf
  by_cases h : 0 < changeValue
  · rw [if_pos ((toNumber_pos_iff changeValue).mpr h), if_pos h]
  · rw [if_neg (fun hc => h ((toNumber_pos_iff changeValue).mp hc)), if_neg h]

theorem psbtOutputsOf_values (recipients : List Recipient) (changeAddress : String)
    (changeValue : Int) :
    (psbtOutputsOf recipients changeAddress changeValue).map PsbtOutput.value
      = (recipients.map fun r => toNumber r.amountSats) ++
        (if toNumber changeValue > 0 then [toNumber changeValue] else []) := by
  unfold psbtOutputsOf
  rw [List.map_append, List.map_map]
  congr 1
  split <;> rfl

/-- Characterization of a successful orchestrator run: the returned flag,
fee, change formula, and the coverage fact that the re-validation checkpoint
guarantees whenever the reconciled selection length differs from the
provisional one. -/
theorem getTransactionData_ok_spec (env : GtdEnv) (network : NetworkType)
    (senderAddress : String) (recipients : List Recipient) (feeRateInput : Option String)
    (ordinalUtxo : Option UTXO) (d : TransactionData)
    (h : (getTransactionData env network senderAddress recipients feeRateInput ordinalUtxo).fst
      = Except.ok d) :
    d.ordinalUtxoInPaymentAddress = ordinalFlag env.unspentOutputs ordinalUtxo ∧
    d.fee = (reconciledResult env network senderAddress recipients feeRateInput ordinalUtxo).2 ∧
    d.changeValue = sumUnspentOutputs d.selectedUTXOs - amountSatsOf recipients - d.fee ∧
    ((reconciledResult env network senderAddress recipients feeRateInput ordinalUtxo).1.length ≠
        (provisionalSelection env recipients feeRateInput ordinalUtxo).length →
      amountSatsOf recipients + d.fee ≤ sumUnspentOutputs d.selectedUTXOs) := by
  simp only [getTransactionData] at h
  split at h
  · simp at h
  · split at h
    · split at h
      · simp at h
      · next hlen hsum =>
          simp only at h
          obtain rfl := Except.ok.inj h
          refine ⟨rfl, rfl, by simp, fun _ => ?_⟩
          simpa using le_of_not_lt hsum
    · next hlen =>
        simp only at h
        obtain rfl := Except.ok.inj h
        refine ⟨rfl, rfl, by simp, fun hne => absurd hne hlen⟩

/-- Characterization of a failing orchestrator run: the thrown value is
always the bare numeric insufficiency status code, and no collaborator is
invoked more than once. -/
theorem getTransactionData_error_spec (env : GtdEnv) (network : NetworkType)
    (senderAddress : String) (recipients : List Recipient) (feeRateInput : Option String)
    (ordinalUtxo : Option UTXO) (t : Thrown) (tr : GtdTrace)
    (h : getTransactionData env network senderAddress recipients feeRateInput ordinalUtxo
      = (Except.error t, tr)) :
    t = Thrown.statusCode ErrorCodes.InSufficientBalanceWithTxFee ∧
    tr.feeRateFetches ≤ 1 ∧ tr.getFeeCalls ≤ 1 := by
  simp only [getTransactionData] at h
  split at h
  · rw [Prod.mk.injEq] at h
    obtain ⟨h1, h2⟩ := h
    subst h2
    exact ⟨(Except.error.inj h1).symm, by decide, by decide⟩
  · split at h
    · split at h
      · rw [Prod.mk.injEq] at h
        obtain ⟨h1, h2⟩ := h
        subst h2
        exact ⟨(Except.error.inj h1).symm, by decide, by decide⟩
      · simp at h
    · simp at h

/-! ### Claims -/

/-- Concrete collaborator environment where reconciliation keeps the
provisional selection (same length) but returns a fee exceeding the
provisional slack. -/
def negChangeEnv : GtdEnv :=
  { unspentOutputs := [⟨"a", 0, 10, "addr"⟩]
    addressOrdinalsUtxos := []
    fetchedFeeRate := ⟨1, 2, 3⟩
    getFee := fun _ selected _ _ _ _ _ _ _ => (selected, 100) }

/-- C1 (counterexample): a successful `getTransactionData` run whose returned
`changeValue` is negative — the reconciliation collaborator returned the
same-length selection with a fee above the slack, and the code only
re-validates when the selection length changes, so no `InsufficientFunds`
is raised. -/
theorem getTransactionData_negative_change_cex :
    (getTransactionData negChangeEnv NetworkType.Mainnet "addr"
        [{ address := "B", amountSats := 5 }] none none).fst
      = Except.ok { selectedUTXOs := [⟨"a", 0, 10, "addr"⟩], changeValue := -95, fee := 100,
                    ordinalUtxoInPaymentAddress := false } ∧
    (-95 : Int) < 0 :=
  ⟨rfl, by decide⟩

/-- C1 (amended): for every successful `getTransactionData` call the returned
`changeValue` equals the sum of the values of the returned `selectedUTXOs`
minus the recipient total minus the returned fee; and the change is
guaranteed non-negative whenever the reconciled selection length differs
from the provisional one — the only case the code re-validates (a
same-length reconciliation whose fee exceeds the slack yields a successful
run with negative change). -/
theorem getTransactionData_change_formula (env : GtdEnv) (network : NetworkType)
    (senderAddress : String) (recipients : List Recipient) (feeRateInput : Option String)
    (ordinalUtxo : Option UTXO) (d : TransactionData)
    (h : (getTransactionData env network senderAddress recipients feeRateInput ordinalUtxo).fst
      = Except.ok d) :
    d.changeValue = sumUnspentOutputs d.selectedUTXOs - amountSatsOf recipients - d.fee ∧
    ((reconciledResult env network senderAddress recipients feeRateInput ordinalUtxo).1.length ≠
        (provisionalSelection env recipients feeRateInput ordinalUtxo).length →
      0 ≤ d.changeValue) := by
  obtain ⟨-, -, hc, hcov⟩ := getTransactionData_ok_spec env network senderAddress recipients
    feeRateInput ordinalUtxo d h
  refine ⟨hc, fun hne => ?_⟩
  have := hcov hne
  omega

/-- Concrete collaborator environment where reconciliation grows the
selection by one output and returns a covered fee. -/
def growSelEnv : GtdEnv :=
  { unspentOutputs := [⟨"a", 0, 30, "addr"⟩, ⟨"b", 0, 40, "addr"⟩]
    addressOrdinalsUtxos := []
    fetchedFeeRate := ⟨1, 2, 3⟩
    getFee := fun _ _ _ _ _ _ _ _ _ =>
      ([⟨"a", 0, 30, "addr"⟩, ⟨"b", 0, 40, "addr"⟩, ⟨"c", 0, 10, "addr"⟩], 5) }

/-- C1 (witness): the change formula and the (here non-vacuous)
length-differs coverage guarantee, at a concrete successful run. -/
theorem getTransactionData_change_formula_witness :
    (25 : Int) = sumUnspentOutputs
        [⟨"a", 0, 30, "addr"⟩, ⟨"b", 0, 40, "addr"⟩, ⟨"c", 0, 10, "addr"⟩]
        - amountSatsOf [{ address := "B", amountSats := 50 }] - 5 ∧
    ((reconciledResult growSelEnv NetworkType.Mainnet "addr"
          [{ address := "B", amountSats := 50 }] none none).1.length ≠
        (provisionalSelection growSelEnv [{ address := "B", amountSats := 50 }] none
          none).length →
      0 ≤ (25 : Int)) :=
  getTransactionData_change_formula growSelEnv NetworkType.Mainnet "addr"
    [{ address := "B", amountSats := 50 }] none none
    { selectedUTXOs := [⟨"a", 0, 30, "addr"⟩, ⟨"b", 0, 40, "addr"⟩, ⟨"c", 0, 10, "addr"⟩],
      changeValue := 25, fee := 5, ordinalUtxoInPaymentAddress := false }
    rfl

/-- C2 (amended): with no pinned input supplied, if the fundable candidate
total is below the recipient total then `getTransactionData` fails with the
insufficiency status code before any fee-rate fetch — the fee-tier fetch
counter of the trace is zero.  (A pinned input whose value covers the
target defeats the fast reject even when the candidate total is below the
target; see the counterexample.) -/
theorem getTransactionData_fast_reject_no_fee_fetch (env : GtdEnv) (network : NetworkType)
    (senderAddress : String) (recipients : List Recipient) (feeRateInput : Option String)
    (h : sumUnspentOutputs (filterUtxos env.unspentOutputs env.addressOrdinalsUtxos)
      < amountSatsOf recipients) :
    getTransactionData env network senderAddress recipients feeRateInput none
      = (Except.error (Thrown.statusCode ErrorCodes.InSufficientBalanceWithTxFee), ⟨0, 0⟩) := by
  have hsel : sumUnspentOutputs (provisionalSelection env recipients feeRateInput none)
      < amountSatsOf recipients := by
    refine lt_of_le_of_lt ?_ h
    simp only [provisionalSelection, selectUnspentOutputs]
    exact coverGreedy_sum_le _ _ 0
  simp only [getTransactionData]
  rw [if_pos hsel]

/-- Concrete environment whose fundable candidates total 10 satoshis. -/
def smallFundsEnv : GtdEnv :=
  { unspentOutputs := [⟨"a", 0, 10, "A"⟩]
    addressOrdinalsUtxos := []
    fetchedFeeRate := ⟨1, 2, 3⟩
    getFee := fun _ selected _ _ _ _ _ _ _ => (selected, 1) }

/-- C2 (witness): a concrete run with candidate total 10 below the target
100 fails at once with zero fee-tier fetches. -/
theorem getTransactionData_fast_reject_no_fee_fetch_witness :
    getTransactionData smallFundsEnv NetworkType.Mainnet "A"
        [{ address := "B", amountSats := 100 }] none none
      = (Except.error (Thrown.statusCode ErrorCodes.InSufficientBalanceWithTxFee), ⟨0, 0⟩) :=
  getTransactionData_fast_reject_no_fee_fetch smallFundsEnv NetworkType.Mainnet "A"
    [{ address := "B", amountSats := 100 }] none (by decide)

/-- The caller-designated pinned output used in the C2 counterexample; its
value alone covers the target. -/
def pinnedUtxo : UTXO := ⟨"p", 0, 1000, "X"⟩

/-- C2 (counterexample): with a pinned input of value 1000 force-included by
the selection heuristic, a run whose candidate total 10 is below the target
100 passes the fast reject and performs one fee-tier fetch — the claim
quantifies over every run with `sum(C) < sum(R.amounts)` but the fast
reject tests the selected total, which includes the pinned value. -/
theorem getTransactionData_pinned_bypasses_fast_reject_cex :
    sumUnspentOutputs (filterUtxos smallFundsEnv.unspentOutputs
        smallFundsEnv.addressOrdinalsUtxos)
      < amountSatsOf [{ address := "B", amountSats := 100 }] ∧
    (getTransactionData smallFundsEnv NetworkType.Mainnet "A"
        [{ address := "B", amountSats := 100 }] none (some pinnedUtxo)).snd.feeRateFetches
      = 1 ∧
    (getTransactionData smallFundsEnv NetworkType.Mainnet "A"
        [{ address := "B", amountSats := 100 }] none (some pinnedUtxo)).fst
      = Except.ok { selectedUTXOs := [pinnedUtxo], changeValue := 899, fee := 1,
                    ordinalUtxoInPaymentAddress := false } :=
  ⟨by decide, rfl, rfl⟩

/-- C4 (amended): whenever `getTransactionData` fails for insufficiency — at
either checkpoint — the value surfaced to the caller is the bare numeric
`statusCode` of the `ResponseError` built from the stable
`InSufficientBalanceWithTxFee` code: machine-readable and stable, but not
the typed error object itself; and no collaborator call is repeated (no
internal retry). -/
theorem getTransactionData_insufficiency_surface (env : GtdEnv) (network : NetworkType)
    (senderAddress : String) (recipients : List Recipient) (feeRateInput : Option String)
    (ordinalUtxo : Option UTXO) (t : Thrown) (tr : GtdTrace)
    (h : getTransactionData env network senderAddress recipients feeRateInput ordinalUtxo
      = (Except.error t, tr)) :
    t = Thrown.statusCode (ResponseError.mk ErrorCodes.InSufficientBalanceWithTxFee).statusCode ∧
    t.isTypedError = false ∧
    tr.feeRateFetches ≤ 1 ∧ tr.getFeeCalls ≤ 1 := by
  obtain ⟨h1, h2, h3⟩ := getTransactionData_error_spec env network senderAddress recipients
    feeRateInput ordinalUtxo t tr h
  exact ⟨h1, by rw [h1]; rfl, h2, h3⟩

/-- C4 (witness): the surface characterization at a concrete failing run. -/
theorem getTransactionData_insufficiency_surface_witness :
    Thrown.statusCode ErrorCodes.InSufficientBalanceWithTxFee
      = Thrown.statusCode (ResponseError.mk ErrorCodes.InSufficientBalanceWithTxFee).statusCode ∧
    (Thrown.statusCode ErrorCodes.InSufficientBalanceWithTxFee).isTypedError = false ∧
    (0 : Nat) ≤ 1 ∧ (0 : Nat) ≤ 1 :=
  getTransactionData_insufficiency_surface smallFundsEnv NetworkType.Mainnet "A"
    [{ address := "B", amountSats := 100 }] none none
    (Thrown.statusCode ErrorCodes.InSufficientBalanceWithTxFee) ⟨0, 0⟩ rfl

/-- C4 (counterexample): a concrete insufficiency failure surfaces the bare
numeric status code — a value that is not a typed error object — so the
claim that the failure is surfaced "as a typed InsufficientFunds error" is
false on the code (the source throws `new ResponseError(...).statusCode`). -/
theorem getTransactionData_throws_bare_code_cex :
    (getTransactionData smallFundsEnv NetworkType.Mainnet "A"
        [{ address := "B", amountSats := 100 }] none none).fst
      = Except.error (Thrown.statusCode ErrorCodes.InSufficientBalanceWithTxFee) ∧
    Thrown.isTypedError (Thrown.statusCode ErrorCodes.InSufficientBalanceWithTxFee) = false :=
  ⟨rfl, rfl⟩

/-- C5: for every successful call, the returned
`ordinalUtxoInPaymentAddress` is true exactly when some member of the
fetched unspent set shares the `(txid, vout)` outpoint with the supplied
pinned UTXO, and is false when no pinned UTXO is supplied; the flag is
computed from the raw (unfiltered) unspent set and surfaced unchanged. -/
theorem getTransactionData_ordinal_flag (env : GtdEnv) (network : NetworkType)
    (senderAddress : String) (recipients : List Recipient) (feeRateInput : Option String)
    (ordinalUtxo : Option UTXO) (d : TransactionData)
    (h : (getTransactionData env network senderAddress recipients feeRateInput ordinalUtxo).fst
      = Except.ok d) :
    (∀ o, ordinalUtxo = some o →
      (d.ordinalUtxoInPaymentAddress = true ↔
        ∃ u ∈ env.unspentOutputs, u.txid = o.txid ∧ u.vout = o.vout)) ∧
    (ordinalUtxo = none → d.ordinalUtxoInPaymentAddress = false) := by
  obtain ⟨hflag, -, -, -⟩ := getTransactionData_ok_spec env network senderAddress recipients
    feeRateInput ordinalUtxo d h
  constructor
  · rintro o rfl
    rw [hflag]
    simp [ordinalFlag, List.any_eq_true]
  · rintro rfl
    rw [hflag]
    rfl

/-- Concrete environment whose single unspent output is also supplied as
the pinned output. -/
def pinnedOwnFundsEnv : GtdEnv :=
  { unspentOutputs := [⟨"p", 0, 50, "A"⟩]
    addressOrdinalsUtxos := []
    fetchedFeeRate := ⟨1, 2, 3⟩
    getFee := fun _ selected _ _ _ _ _ _ _ => (selected, 5) }

/-- The pinned output of the C5 witness run: a member of the unspent set. -/
def ownPinnedUtxo : UTXO := ⟨"p", 0, 50, "A"⟩

/-- C5 (witness): at a concrete successful run whose pinned output is a
member of the unspent set, the returned flag is true and the membership
equivalence holds. -/
theorem getTransactionData_ordinal_flag_witness :
    (TransactionData.mk [ownPinnedUtxo] 35 5 true).ordinalUtxoInPaymentAddress = true ↔
      ∃ u ∈ pinnedOwnFundsEnv.unspentOutputs,
        u.txid = ownPinnedUtxo.txid ∧ u.vout = ownPinnedUtxo.vout :=
  (getTransactionData_ordinal_flag pinnedOwnFundsEnv NetworkType.Mainnet "A"
    [{ address := "B", amountSats := 10 }] none (some ownPinnedUtxo)
    (TransactionData.mk [ownPinnedUtxo] 35 5 true) rfl).1 ownPinnedUtxo rfl

/-- Assembly environment whose raw-transaction fetch returns fixed bytes. -/
def dupFetchEnv : AssemblyEnv := ⟨fun _ => "beef"⟩

/-- C3 (counterexample): two selected inputs sharing one origin txid cause
two raw-transaction fetches — the fetch count is N (the input count), not
the number K of distinct txids (here K = 1 < N = 2): the `map` over
`inputUTXOs` issues one fetch per element and only the storage map
de-duplicates. -/
theorem createNativeSegwitPsbt_duplicate_fetch_cex :
    (createNativeSegwitPsbt dupFetchEnv NetworkType.Mainnet [] "c" 0
        [⟨"t1", 0, 5, "A"⟩, ⟨"t1", 1, 7, "A"⟩] none ⟨"w"⟩).snd = ["t1", "t1"] ∧
    (["t1", "t1"] : List String).dedup.length = 1 ∧
    (["t1", "t1"] : List String).length = 2 :=
  ⟨rfl, by decide, rfl⟩

/-- C3 (amended): the single-scheme segwit assembler performs exactly one
raw-transaction fetch per selected input — N fetches in input order,
duplicate txids fetched repeatedly — and every referenced txid is fetched;
the txid-keyed map de-duplicates only what is stored, not the fetches. -/
theorem createNativeSegwitPsbt_fetch_per_input (env : AssemblyEnv) (network : NetworkType)
    (recipients : List Recipient) (changeAddress : String) (changeValue : Int)
    (inputUTXOs : List UTXO) (inputDerivation : Option (List Bip32Derivation))
    (witnessScript : Buffer) :
    (createNativeSegwitPsbt env network recipients changeAddress changeValue inputUTXOs
        inputDerivation witnessScript).snd.length = inputUTXOs.length ∧
    ∀ u ∈ inputUTXOs,
      u.txid ∈ (createNativeSegwitPsbt env network recipients changeAddress changeValue
        inputUTXOs inputDerivation witnessScript).snd := by
  constructor
  · simp [createNativeSegwitPsbt]
  · intro u hu
    simp only [createNativeSegwitPsbt, List.mem_map]
    exact ⟨u, hu, rfl⟩

/-- C3 (witness): fetch count and referenced-txid coverage at a concrete
two-input selection. -/
theorem createNativeSegwitPsbt_fetch_per_input_witness :
    (createNativeSegwitPsbt dupFetchEnv NetworkType.Mainnet [] "c" 0
        [⟨"t1", 0, 5, "A"⟩, ⟨"t1", 1, 7, "A"⟩] none ⟨"w"⟩).snd.length = 2 ∧
    "t1" ∈ (createNativeSegwitPsbt dupFetchEnv NetworkType.Mainnet [] "c" 0
        [⟨"t1", 0, 5, "A"⟩, ⟨"t1", 1, 7, "A"⟩] none ⟨"w"⟩).snd := by
  have h := createNativeSegwitPsbt_fetch_per_input dupFetchEnv NetworkType.Mainnet [] "c" 0
    [⟨"t1", 0, 5, "A"⟩, ⟨"t1", 1, 7, "A"⟩] none ⟨"w"⟩
  exact ⟨h.1, h.2 ⟨"t1", 0, 5, "A"⟩ (by decide)⟩

/-- C6: in every assembly variant the emitted outputs are exactly one
output per recipient, in recipient order, followed by exactly one change
output to the change address when the exact `changeValue` is positive, and
no change output when it is zero or negative. -/
theorem psbt_outputs_structure (env : AssemblyEnv) (network : NetworkType)
    (recipients : List Recipient) (changeAddress : String) (changeValue : Int)
    (inputUTXOs : List UTXO) (inputDerivation : Option (List Bip32Derivation))
    (witnessScript : Buffer) (taprootInputDerivation : Option (List TapBip32Derivation))
    (taprootScript : Buffer) (tapInternalKey : Buffer) :
    (createNativeSegwitPsbt env network recipients changeAddress changeValue inputUTXOs
        inputDerivation witnessScript).fst.outputs
      = (recipients.map fun r => { address := r.address, value := toNumber r.amountSats }) ++
        (if 0 < changeValue then
          [{ address := changeAddress, value := toNumber changeValue }]
         else []) ∧
    (createTaprootPsbt network recipients changeAddress changeValue inputUTXOs
        taprootInputDerivation taprootScript tapInternalKey).outputs
      = (recipients.map fun r => { address := r.address, value := toNumber r.amountSats }) ++
        (if 0 < changeValue then
          [{ address := changeAddress, value := toNumber changeValue }]
         else []) ∧
    (createMixedPsbt env network recipients changeAddress changeValue inputUTXOs
        inputDerivation witnessScript taprootInputDerivation taprootScript
        tapInternalKey).fst.outputs
      = (recipients.map fun r => { address := r.address, value := toNumber r.amountSats }) ++
        (if 0 < changeValue then
          [{ address := changeAddress, value := toNumber changeValue }]
         else []) :=
  ⟨psbtOutputsOf_eq recipients changeAddress changeValue,
   psbtOutputsOf_eq recipients changeAddress changeValue,
   psbtOutputsOf_eq recipients changeAddress changeValue⟩

/-- C7: every input added by any of the three assembly variants carries
`sequence = 0xfffffffd`, for every input list and both classification
branches of the mixed variant. -/
theorem psbt_inputs_sequence_rbf :
    (∀ (env : AssemblyEnv) (network : NetworkType) (recipients : List Recipient)
        (changeAddress : String) (changeValue : Int) (inputUTXOs : List UTXO)
        (inputDerivation : Option (List Bip32Derivation)) (witnessScript : Buffer)
        (i : PsbtInput),
      i ∈ (createNativeSegwitPsbt env network recipients changeAddress changeValue inputUTXOs
          inputDerivation witnessScript).fst.inputs → i.sequence = 0xfffffffd) ∧
    (∀ (network : NetworkType) (recipients : List Recipient) (changeAddress : String)
        (changeValue : Int) (inputUTXOs : List UTXO)
        (inputDerivation : Option (List TapBip32Derivation))
        (taprootScript tapInternalKey : Buffer) (i : PsbtInput),
      i ∈ (createTaprootPsbt network recipients changeAddress changeValue inputUTXOs
          inputDerivation taprootScript tapInternalKey).inputs → i.sequence = 0xfffffffd) ∧
    (∀ (env : AssemblyEnv) (network : NetworkType) (recipients : List Recipient)
        (changeAddress : String) (changeValue : Int) (inputUTXOs : List UTXO)
        (inputDerivation : Option (List Bip32Derivation)) (witnessScript : Buffer)
        (taprootInputDerivation : Option (List TapBip32Derivation))
        (taprootScript tapInternalKey : Buffer) (i : PsbtInput),
      i ∈ (createMixedPsbt env network recipients changeAddress changeValue inputUTXOs
          inputDerivation witnessScript taprootInputDerivation taprootScript
          tapInternalKey).fst.inputs → i.sequence = 0xfffffffd) := by
  refine ⟨?_, ?_, ?_⟩
  · intro env network recipients ca cv utxos deriv ws i hi
    simp only [createNativeSegwitPsbt, List.mem_map] at hi
    obtain ⟨u, -, rfl⟩ := hi
    rfl
  · intro network recipients ca cv utxos deriv ts k i hi
    simp only [createTaprootPsbt, List.mem_map] at hi
    obtain ⟨u, -, rfl⟩ := hi
    rfl
  · intro env network recipients ca cv utxos deriv ws td ts k i hi
    simp only [createMixedPsbt, List.mem_map] at hi
    obtain ⟨u, -, rfl⟩ := hi
    split <;> rfl

/-- Assembly environment used by the concrete assembler witnesses. -/
def asmWitnessEnv : AssemblyEnv := ⟨fun _ => "beef"⟩

/-- C7 (witness): the input constructed by the segwit variant at a concrete
run carries the replaceable sequence value. -/
theorem psbt_inputs_sequence_rbf_witness :
    (PsbtInput.mk "a" 0 ⟨"w"⟩ 10 (some ⟨"beef"⟩) none none none 0xfffffffd).sequence
      = 0xfffffffd :=
  psbt_inputs_sequence_rbf.1 asmWitnessEnv NetworkType.Mainnet [] "c" 0 [⟨"a", 0, 10, "A"⟩]
    none ⟨"w"⟩ (PsbtInput.mk "a" 0 ⟨"w"⟩ 10 (some ⟨"beef"⟩) none none none 0xfffffffd)
    (by decide)

/-- Shape of a segwit-style input of the mixed variant: outpoint from the
UTXO, witness context from the shared witness script and the UTXO value,
parent-transaction bytes attached, the shared BIP32 derivation, and no
taproot fields. -/
def segwitStyleInput (inputDerivation : Option (List Bip32Derivation)) (witnessScript : Buffer)
    (u : UTXO) (i : PsbtInput) : Prop :=
  i.hash = u.txid ∧ i.index = u.vout ∧ i.witnessUtxoScript = witnessScript ∧
  i.witnessUtxoValue = u.value ∧ (∃ b, i.nonWitnessUtxo = some b) ∧
  i.bip32Derivation = inputDerivation ∧ i.tapBip32Derivation = none ∧ i.tapInternalKey = none

/-- Shape of a taproot-style input of the mixed variant: outpoint from the
UTXO, witness context from the taproot script and the UTXO value, the
taproot derivation and internal key, and neither parent-transaction bytes
nor a plain BIP32 derivation. -/
def taprootStyleInput (taprootInputDerivation : Option (List TapBip32Derivation))
    (taprootScript tapInternalKey : Buffer) (u : UTXO) (i : PsbtInput) : Prop :=
  i.hash = u.txid ∧ i.index = u.vout ∧ i.witnessUtxoScript = taprootScript ∧
  i.witnessUtxoValue = u.value ∧ i.nonWitnessUtxo = none ∧ i.bip32Derivation = none ∧
  i.tapBip32Derivation = taprootInputDerivation ∧ i.tapInternalKey = some tapInternalKey

/-- C8: the mixed variant preserves the input count, and classifies each
selected input by owning address — an input whose address equals the
designated change address is assembled segwit-style (witness context plus
parent bytes plus BIP32 derivation), every other one taproot-style
(witness context plus taproot derivation plus internal key). -/
theorem createMixedPsbt_classification (env : AssemblyEnv) (network : NetworkType)
    (recipients : List Recipient) (changeAddress : String) (changeValue : Int)
    (inputUTXOs : List UTXO) (inputDerivation : Option (List Bip32Derivation))
    (witnessScript : Buffer) (taprootInputDerivation : Option (List TapBip32Derivation))
    (taprootScript : Buffer) (tapInternalKey : Buffer) :
    (createMixedPsbt env network recipients changeAddress changeValue inputUTXOs
        inputDerivation witnessScript taprootInputDerivation taprootScript
        tapInternalKey).fst.inputs.length = inputUTXOs.length ∧
    ∀ (k : Nat) (u : UTXO) (i : PsbtInput), inputUTXOs[k]? = some u →
      (createMixedPsbt env network recipients changeAddress changeValue inputUTXOs
          inputDerivation witnessScript taprootInputDerivation taprootScript
          tapInternalKey).fst.inputs[k]? = some i →
      (u.address = changeAddress → segwitStyleInput inputDerivation witnessScript u i) ∧
      (u.address ≠ changeAddress →
        taprootStyleInput taprootInputDerivation taprootScript tapInternalKey u i) := by
  constructor
  · simp [createMixedPsbt]
  · intro k u i hu hi
    have humem : u ∈ inputUTXOs := List.getElem?_mem hu
    simp only [createMixedPsbt] at hi
    rw [List.getElem?_map, hu, Option.map_some'] at hi
    obtain rfl := (Option.some.inj hi).symm
    by_cases hc : u.address = changeAddress
    · refine ⟨fun _ => ?_, fun hneq => absurd hc hneq⟩
      rw [if_pos (beq_iff_eq.mpr hc)]
      exact ⟨rfl, rfl, rfl, rfl,
        ⟨Buffer.fromHex (env.getTransactionHex u.txid), by
          simp only [transactionMapOf]
          rw [if_pos (List.any_eq_true.mpr ⟨u, humem, beq_self_eq_true u.txid⟩)]⟩,
        rfl, rfl, rfl⟩
    · refine ⟨fun heq => absurd heq hc, fun _ => ?_⟩
      rw [if_neg (fun hb => hc (beq_iff_eq.mp hb))]
      exact ⟨rfl, rfl, rfl, rfl, rfl, rfl, rfl, rfl⟩

/-- C8 (witness): at a concrete two-address run, the input count is
preserved and the change-address input is classified segwit-style. -/
theorem createMixedPsbt_classification_witness :
    (createMixedPsbt asmWitnessEnv NetworkType.Mainnet [] "CH" 0
        [⟨"a", 0, 5, "CH"⟩, ⟨"b", 1, 7, "T"⟩] none ⟨"w"⟩ none ⟨"t"⟩
        ⟨"k"⟩).fst.inputs.length = 2 ∧
    ((UTXO.mk "a" 0 5 "CH").address = "CH" →
      segwitStyleInput none ⟨"w"⟩ (UTXO.mk "a" 0 5 "CH")
        (PsbtInput.mk "a" 0 ⟨"w"⟩ 5 (some ⟨"beef"⟩) none none none 0xfffffffd)) ∧
    ((UTXO.mk "a" 0 5 "CH").address ≠ "CH" →
      taprootStyleInput none ⟨"t"⟩ ⟨"k"⟩ (UTXO.mk "a" 0 5 "CH")
        (PsbtInput.mk "a" 0 ⟨"w"⟩ 5 (some ⟨"beef"⟩) none none none 0xfffffffd)) := by
  have h := createMixedPsbt_classification asmWitnessEnv NetworkType.Mainnet [] "CH" 0
    [⟨"a", 0, 5, "CH"⟩, ⟨"b", 1, 7, "T"⟩] none ⟨"w"⟩ none ⟨"t"⟩ ⟨"k"⟩
  have h2 := h.2 0 (UTXO.mk "a" 0 5 "CH")
    (PsbtInput.mk "a" 0 ⟨"w"⟩ 5 (some ⟨"beef"⟩) none none none 0xfffffffd) rfl rfl
  exact ⟨h.1, h2.1, h2.2⟩

/-- C9: the signature patcher round-trip — deserialize, encode the raw VRS
signature bytes via their hex text, assign into the single-signature
authorization slot — yields a transaction whose signature slot reads back
as exactly that encoding, and every other field of the deserialized
transaction is unchanged. -/
theorem addSignatureToStxTransaction_roundtrip
    (deserializeTransaction : String → StacksTransaction)
    (createMessageSignature : String → MessageSignature)
    (transaction : String) (signatureVRS : List Nat) :
    (addSignatureToStxTransaction deserializeTransaction createMessageSignature transaction
        signatureVRS).auth.spendingCondition.signature
      = createMessageSignature (bytesToHex signatureVRS) ∧
    (addSignatureToStxTransaction deserializeTransaction createMessageSignature transaction
        signatureVRS).version = (deserializeTransaction transaction).version ∧
    (addSignatureToStxTransaction deserializeTransaction createMessageSignature transaction
        signatureVRS).chainId = (deserializeTransaction transaction).chainId ∧
    (addSignatureToStxTransaction deserializeTransaction createMessageSignature transaction
        signatureVRS).payload = (deserializeTransaction transaction).payload ∧
    (addSignatureToStxTransaction deserializeTransaction createMessageSignature transaction
        signatureVRS).auth.authType = (deserializeTransaction transaction).auth.authType ∧
    (addSignatureToStxTransaction deserializeTransaction createMessageSignature transaction
        signatureVRS).auth.spendingCondition.hashMode
      = (deserializeTransaction transaction).auth.spendingCondition.hashMode ∧
    (addSignatureToStxTransaction deserializeTransaction createMessageSignature transaction
        signatureVRS).auth.spendingCondition.signer
      = (deserializeTransaction transaction).auth.spendingCondition.signer ∧
    (addSignatureToStxTransaction deserializeTransaction createMessageSignature transaction
        signatureVRS).auth.spendingCondition.nonce
      = (deserializeTransaction transaction).auth.spendingCondition.nonce ∧
    (addSignatureToStxTransaction deserializeTransaction createMessageSignature transaction
        signatureVRS).auth.spendingCondition.fee
      = (deserializeTransaction transaction).auth.spendingCondition.fee ∧
    (addSignatureToStxTransaction deserializeTransaction createMessageSignature transaction
        signatureVRS).auth.spendingCondition.keyEncoding
      = (deserializeTransaction transaction).auth.spendingCondition.keyEncoding :=
  ⟨rfl, rfl, rfl, rfl, rfl, rfl, rfl, rfl, rfl, rfl⟩

/-- C10 (amended): every assembly variant converts each emitted output
amount with `toNumber` (the exact-integer embedding of the conversion to an
IEEE-754 double), including the change condition, which is evaluated on the
converted value rather than the exact one; the conversion is exact for
every amount up to `2 ^ 53` — exactness also holds at some larger
representable amounts such as `2 ^ 53` itself, so the `2 ^ 53 - 1` cutoff
of the claim is a guarantee threshold, not an exact boundary. -/
theorem psbt_output_values_double_conversion :
    (∀ (env : AssemblyEnv) (network : NetworkType) (recipients : List Recipient)
        (changeAddress : String) (changeValue : Int) (inputUTXOs : List UTXO)
        (inputDerivation : Option (List Bip32Derivation)) (witnessScript : Buffer),
      ((createNativeSegwitPsbt env network recipients changeAddress changeValue inputUTXOs
          inputDerivation witnessScript).fst.outputs.map PsbtOutput.value)
        = (recipients.map fun r => toNumber r.amountSats) ++
          (if toNumber changeValue > 0 then [toNumber changeValue] else [])) ∧
    (∀ (network : NetworkType) (recipients : List Recipient) (changeAddress : String)
        (changeValue : Int) (inputUTXOs : List UTXO)
        (inputDerivation : Option (List TapBip32Derivation))
        (taprootScript tapInternalKey : Buffer),
      ((createTaprootPsbt network recipients changeAddress changeValue inputUTXOs
          inputDerivation taprootScript tapInternalKey).outputs.map PsbtOutput.value)
        = (recipients.map fun r => toNumber r.amountSats) ++
          (if toNumber changeValue > 0 then [toNumber changeValue] else [])) ∧
    (∀ (env : AssemblyEnv) (network : NetworkType) (recipients : List Recipient)
        (changeAddress : String) (changeValue : Int) (inputUTXOs : List UTXO)
        (inputDerivation : Option (List Bip32Derivation)) (witnessScript : Buffer)
        (taprootInputDerivation : Option (List TapBip32Derivation))
        (taprootScript tapInternalKey : Buffer),
      ((createMixedPsbt env network recipients changeAddress changeValue inputUTXOs
          inputDerivation witnessScript taprootInputDerivation taprootScript
          tapInternalKey).fst.outputs.map PsbtOutput.value)
        = (recipients.map fun r => toNumber r.amountSats) ++
          (if toNumber changeValue > 0 then [toNumber changeValue] else [])) ∧
    (∀ n : Int, 0 ≤ n → n ≤ 2 ^ 53 → toNumber n = n) := by
  refine ⟨?_, ?_, ?_, toNumber_of_nonneg_le⟩
  · intro env network recipients ca cv utxos deriv ws
    exact psbtOutputsOf_values recipients ca cv
  · intro network recipients ca cv utxos deriv ts k
    exact psbtOutputsOf_values recipients ca cv
  · intro env network recipients ca cv utxos deriv ws td ts k
    exact psbtOutputsOf_values recipients ca cv

/-- C10 (witness): the conversion is exact at the claimed bound
`2 ^ 53 - 1`. -/
theorem psbt_output_values_double_conversion_witness :
    toNumber 9007199254740991 = 9007199254740991 :=
  psbt_output_values_double_conversion.2.2.2 9007199254740991 (by norm_num) (by norm_num)

/-- C10 (counterexample): a recipient amount of `2 ^ 53` satoshis — which
exceeds `2 ^ 53 - 1` — is still emitted exactly, so "equals ... exactly
only when that amount does not exceed 2^53 − 1" is false as stated. -/
theorem toNumber_exact_above_bound_cex :
    (createNativeSegwitPsbt asmWitnessEnv NetworkType.Mainnet
        [{ address := "A", amountSats := 9007199254740992 }] "c" 0 [] none
        ⟨"w"⟩).fst.outputs
      = [{ address := "A", value := 9007199254740992 }] ∧
    (9007199254740992 : Int) = 2 ^ 53 ∧
    2 ^ 53 - 1 < (9007199254740992 : Int) :=
  ⟨rfl, by norm_num, by norm_num⟩
